import Mathlib

/-!
# Verification of the SteamCMD-JS-Interface core against its specification

Shallow embedding, in Lean 4, of the process-driving and output-parsing
engine of the repository:

* `src/src/lib/AsyncQueue.js` — the closable asynchronous FIFO queue
  (class `AsyncQueue`);
* `src/unnamed/part_015` — `getPtyDataIterator`, the pty data/exit bridge
  that normalises chunks and drives them through an `AsyncQueue`;
* `src/src/SteamCmd.js` — `SteamCmd.run` (script composition and exit-code
  handling), `SteamCmd.updateApp` (install-dir validation and progress-line
  matching), and the `SteamCmd.init` / constructor guard;
* `src/unnamed/part_014` — `SteamCmdError` (`EXIT_CODES`, `getErrorMessage`).

The JavaScript runtime is single threaded and cooperative; promise-based
control flow is embedded as explicit state passing.  Where the outcome of a
`Promise.race` depends on microtask (job) ordering, each definition's doc
comment records the ECMA-262 job-ordering derivation that justifies the
branch taken.
-/

/-! ## AsyncQueue (src/src/lib/AsyncQueue.js)

State of one `AsyncQueue` instance.  The JS class holds

* `#queue` — a JS array; `enqueue` does `#queue.unshift(item)` (prepend) and
  `dequeue` does `#queue.pop()` (remove the last element), so the list below
  keeps the JS array order: head = index 0 = most recently enqueued item,
  last = oldest item;
* `#isClosed` — the boolean checked by `enqueue`;
* `#dequeuePromise` / `#resolveDequeuePromise` — a promise that is resolved
  while items are available.  `dequeueArmed` below is `true` exactly when the
  *current* `#dequeuePromise` is already resolved: `enqueue` resolves it,
  `_createDequeuePromise` (called by `dequeue` when `#queue.length <= 1`)
  replaces it by a fresh unresolved one;
* `#closedPromise` — resolved by `close()`; its resolved/pending status is
  exactly `isClosed` (both are set only by `close`).
-/

structure AsyncQueue (T : Type) where
  queue : List T
  isClosed : Bool
  dequeueArmed : Bool
deriving Repr, DecidableEq

namespace AsyncQueue

/-- `new AsyncQueue()` (no initial values, as used by `getPtyDataIterator`):
empty array, not closed, `#dequeuePromise` freshly created and unresolved. -/
def new {T : Type} : AsyncQueue T := ⟨[], false, false⟩

/-- Result of a call to `enqueue(item)`: either the updated queue, or the
synchronous `Error('Cannot enqueue when queue is closed')`. -/
inductive EnqueueResult (T : Type) where
  | ok (s : AsyncQueue T)
  | closedError
deriving Repr, DecidableEq

/-- `enqueue(item)`: throws if `#isClosed`; otherwise `#queue.unshift(item)`
and `#resolveDequeuePromise()` (so the dequeue promise is resolved). -/
def enqueue {T : Type} (s : AsyncQueue T) (item : T) : EnqueueResult T :=
  if s.isClosed then .closedError
  else .ok ⟨item :: s.queue, s.isClosed, true⟩

/-- `close()`: sets `#isClosed`, resolves `#closedPromise`, and splices the
whole `#queue` away (buffered items are discarded).  It does **not** touch
`#dequeuePromise`, so `dequeueArmed` is unchanged. -/
def close {T : Type} (s : AsyncQueue T) : AsyncQueue T :=
  ⟨[], true, s.dequeueArmed⟩

/-- Outcome of one `dequeue()` call.

* `value v` — the returned promise fulfils with `#queue.pop()`; `v = none`
  models JS `undefined` (`pop` on an empty array);
* `closedError` — the returned promise rejects with
  `Error('Cannot dequeue when queue is closed')`;
* `suspended` — the returned promise stays pending (empty open queue with an
  unresolved dequeue promise); it is settled later by the next `enqueue` or
  `close`, which is modelled by re-running `dequeue` on the updated state. -/
inductive DequeueOutcome (T : Type) where
  | value (v : Option T)
  | closedError
  | suspended
deriving Repr, DecidableEq

/-- `dequeue()` body:

```js
const closePromise = this.#closedPromise.then(() => { throw ... })
await Promise.race([closePromise, this.#dequeuePromise])
if (this.#queue.length <= 1) this._createDequeuePromise()
return this.#queue.pop()
```

Branch justification (ECMA-262 job ordering, single-threaded runtime):

* `dequeueArmed = true` (the dequeue promise is already resolved — an
  `enqueue` ran and no dequeue has recreated the promise since): the job
  queue after the synchronous part of `dequeue` is
  `[closeCallbackJob?, raceReactionOnDequeuePromise]` — the race's reaction
  on the already-fulfilled `#dequeuePromise` is enqueued when `race` runs,
  while `closePromise` (a fresh `.then` derivative of `#closedPromise`) can
  only *reject* one job later, after its callback job throws.  So the race
  fulfils via `#dequeuePromise` even when the queue is already closed, and
  the call proceeds to `pop`.  This is why a `dequeue` issued after
  `enqueue(x); close()` *fulfils with `undefined`* (the queue was cleared by
  `close`) instead of rejecting.
* `dequeueArmed = false` and `isClosed = true`: only `closePromise` can
  settle, and it rejects — the call throws.
* `dequeueArmed = false` and `isClosed = false`: both racers are pending,
  the call suspends. -/
def dequeue {T : Type} (s : AsyncQueue T) : DequeueOutcome T × AsyncQueue T :=
  if s.dequeueArmed then
    -- the race fulfils via the resolved dequeue promise; then
    -- `if (#queue.length <= 1) _createDequeuePromise()` and `#queue.pop()`
    (.value s.queue.getLast?,
      ⟨s.queue.dropLast, s.isClosed, decide (1 < s.queue.length)⟩)
  else if s.isClosed then (.closedError, s)
  else (.suspended, s)

/-- Outcome of one `next()` call of the `[Symbol.asyncIterator]` object.

`errorLeak` is the conceivable bad outcome in which the rejection of
`valuePromise` (i.e. of `dequeue()`) wins the outer race and surfaces to the
consumer; the theorems show it never happens. -/
inductive NextOutcome (T : Type) where
  | yieldItem (v : Option T)
  | done
  | errorLeak
  | pending
deriving Repr, DecidableEq

/-- `[Symbol.asyncIterator]().next()` body:

```js
const valuePromise = this.dequeue().then(value => ({ value, done: false }))
const closePromise = this.#closedPromise.then(() => ({ done: true }))
return Promise.race([valuePromise, closePromise])
```

Branch justification (job ordering as for `dequeue`):

* if `dequeue()` fulfils and the queue is not closed, `closePromise` is
  pending forever at this point, so the race yields the item;
* if `dequeue()` fulfils but the queue is closed (the stale-armed case),
  `closePromise`'s `({done:true})` job is enqueued during the synchronous
  part of `next()` while the fulfilment of `valuePromise` needs the longer
  chain "inner race job → `dequeue` resumption job → `.then` job", so
  `closePromise` wins the outer race: the iteration reports `done`;
* if `dequeue()` rejects, it does so because `#closedPromise` is resolved;
  the `({done:true})` job again precedes the rejection cascade of
  `valuePromise`, so the race fulfils with `done` and the rejection is
  absorbed by the race's already-settled state;
* if `dequeue()` suspends, both racers are pending — `next()` is pending and
  is settled by the next `enqueue`/`close` (modelled by re-running on the
  updated state). -/
def iterNext {T : Type} (s : AsyncQueue T) : NextOutcome T × AsyncQueue T :=
  match dequeue s with
  | (.value v, s') => if s.isClosed then (.done, s') else (.yieldItem v, s')
  | (.closedError, s') => if s.isClosed then (.done, s') else (.errorLeak, s')
  | (.suspended, s') => (.pending, s')

/-- Enqueue a whole list, left to right, stopping at the first error. -/
def enqueueList {T : Type} (s : AsyncQueue T) (xs : List T) : EnqueueResult T :=
  match xs with
  | [] => .ok s
  | x :: rest =>
    match enqueue s x with
    | .ok s' => enqueueList s' rest
    | .closedError => .closedError

/-- `n` consecutive `dequeue()` calls; collects the outcomes in order. -/
def drain {T : Type} (s : AsyncQueue T) : Nat →
    List (DequeueOutcome T) × AsyncQueue T
  | 0 => ([], s)
  | n + 1 =>
    ((dequeue s).1 :: (drain (dequeue s).2 n).1, (drain (dequeue s).2 n).2)

/-- One external operation on a queue instance, for reachability:
an `enqueue` attempt (a failed one leaves the state unchanged), a `dequeue`
call, a `close`, or an iterator `next()` call. -/
inductive QueueOp (T : Type) where
  | enq (x : T)
  | deq
  | closeOp
  | next
deriving Repr, DecidableEq

/-- Apply one operation to the queue state. -/
def applyOp {T : Type} (s : AsyncQueue T) : QueueOp T → AsyncQueue T
  | .enq x =>
    match enqueue s x with
    | .ok s' => s'
    | .closedError => s
  | .deq => (dequeue s).2
  | .closeOp => close s
  | .next => (iterNext s).2

/-- Apply a list of operations in order. -/
def applyOps {T : Type} (s : AsyncQueue T) (ops : List (QueueOp T)) :
    AsyncQueue T :=
  ops.foldl applyOp s

/-- A state is reachable if some sequence of operations reaches it from a
fresh `new AsyncQueue()`. -/
def Reachable {T : Type} (s : AsyncQueue T) : Prop :=
  ∃ ops : List (QueueOp T), applyOps new ops = s

end AsyncQueue

/-! ## Chunk normalisation (src/unnamed/part_015, `getPtyDataIterator`)

The `onData` handler, in cleaned (non-raw) mode, computes

```js
const normalisedLine = outputLine
  .replace(/\r\n/g, '\n')
  .replace(/\r/, '')
  .trim()
const line = `${stripAnsi(normalisedLine)}`
asyncQueue.enqueue(line)
```

Note three facts read directly off the source: the whole chunk is enqueued
as **one** item (there is no splitting on line feeds); the second `replace`
has **no** `g` flag, so only the *first* remaining carriage return is
removed; and `stripAnsi` is applied *after* `.trim()`.
-/

/-- The character class removed by JS `String.prototype.trim`: WhiteSpace
(TAB, VT, FF, SP, NBSP, ZWNBSP, Unicode space separators) and LineTerminator
(LF, CR, LS, PS). -/
def isJsWhitespace (c : Char) : Bool :=
  c = ' ' || c = '\t' || c = '\n' || c = '\r' ||
  c = '\x0b' || c = '\x0c' ||
  c.val = 0xa0 || c.val = 0xfeff || c.val = 0x1680 ||
  (0x2000 <= c.val && c.val <= 0x200a) ||
  c.val = 0x2028 || c.val = 0x2029 || c.val = 0x202f ||
  c.val = 0x205f || c.val = 0x3000

/-- `.replace(/\r\n/g, '\n')`: global, left-to-right, non-overlapping
replacement of each CRLF pair by a single LF. -/
def replaceCrLf : List Char → List Char
  | [] => []
  | '\r' :: '\n' :: rest => '\n' :: replaceCrLf rest
  | c :: rest => c :: replaceCrLf rest

/-- `.replace(/\r/, '')`: no `g` flag — removes only the **first** carriage
return, if any. -/
def removeFirstCr : List Char → List Char
  | [] => []
  | '\r' :: rest => rest
  | c :: rest => c :: removeFirstCr rest

/-- `.trim()`: strip leading and trailing JS whitespace. -/
def jsTrim (l : List Char) : List Char :=
  ((l.dropWhile isJsWhitespace).reverse.dropWhile isJsWhitespace).reverse

/-- Modelled from the spec: the external `strip-ansi` npm dependency (not
part of this repository; the spec consumes it as "ANSI/VT100 escape
sequences stripped").  Modelled as an automaton that removes CSI sequences
`ESC [ <digits and semicolons> <final byte>`, which covers the colour codes
the spec's examples use.  State 0 = plain text, state 1 = just read ESC,
state 2 = inside a CSI parameter list. -/
def stripAnsiGo : Nat → List Char → List Char
  | 1, [] => ['\x1b']
  | _, [] => []
  | 0, c :: rest =>
    if c = '\x1b' then stripAnsiGo 1 rest else c :: stripAnsiGo 0 rest
  | 1, c :: rest =>
    if c = '[' then stripAnsiGo 2 rest
    else if c = '\x1b' then '\x1b' :: stripAnsiGo 1 rest
    else '\x1b' :: c :: stripAnsiGo 0 rest
  | 2, c :: rest =>
    if c.isDigit || c = ';' then stripAnsiGo 2 rest else stripAnsiGo 0 rest
  | _ + 3, l => l

/-- `stripAnsi(s)` of the `strip-ansi` dependency (see `stripAnsiGo`). -/
def stripAnsi (l : List Char) : List Char :=
  stripAnsiGo 0 l

/-- The cleaned-mode transformation applied by the `onData` handler to one
raw pty chunk, in the exact source order: CRLF → LF (global), first CR
removed, trimmed, then ANSI-stripped.  The result is enqueued as one item. -/
def cleanChunk (s : String) : String :=
  ⟨stripAnsi (jsTrim (removeFirstCr (replaceCrLf s.data)))⟩

/-- The item the `onData` handler enqueues for a chunk: the chunk itself in
raw mode, the cleaned chunk otherwise. -/
def deliverItem (raw : Bool) (chunk : String) : String :=
  if raw then chunk else cleanChunk chunk

/-! ## The pty → line-sequence bridge (src/unnamed/part_015)

`getPtyDataIterator` builds a fresh `AsyncQueue`, registers `onData` (which
enqueues one item per chunk) and `onExit` (which calls `asyncQueue.close()`
and disposes both listeners), and then drives `for await (const line of
asyncQueue) yield line`.

The model below runs the bridge over an explicit interleaving of pty events
and consumer pulls.  Each pty event is delivered in its own event-loop turn
(node-pty invokes `onData`/`onExit` from separate I/O callbacks), so all
microtasks of one step settle before the next step. -/

/-- Bridge state: the queue, the lines yielded to the consumer so far
(`none` models a JS `undefined` value), whether the `for await` loop has
ended (`finished`), whether a consumer pull is suspended (`pullPending`),
and whether an error ever surfaced to the consumer (`errored`). -/
structure BridgeState where
  q : AsyncQueue String
  yielded : List (Option String)
  finished : Bool
  pullPending : Bool
  errored : Bool
deriving Repr, DecidableEq

/-- One step of the interleaving: a pty `data` event, the pty `exit` event,
or a consumer pull (`next()` of the `for await` loop). -/
inductive PtyStep where
  | data (chunk : String)
  | exitEvent
  | pull
deriving Repr, DecidableEq

/-- Initial bridge state: fresh queue, nothing yielded, loop running. -/
def bridgeInit : BridgeState :=
  ⟨AsyncQueue.new, [], false, false, false⟩

/-- Resume a suspended consumer pull (if any) after the queue state changed:
the pending `next()`'s races re-settle exactly as a fresh `iterNext` on the
updated queue (the suspended call awaits the same promise objects that the
`enqueue`/`close` just resolved). -/
def resumePull (st : BridgeState) (q' : AsyncQueue String) : BridgeState :=
  if st.pullPending then
    match AsyncQueue.iterNext q' with
    | (.yieldItem v, q'') =>
      ⟨q'', st.yielded ++ [v], st.finished, false, st.errored⟩
    | (.done, q'') => ⟨q'', st.yielded, true, false, st.errored⟩
    | (.errorLeak, q'') => ⟨q'', st.yielded, st.finished, false, true⟩
    | (.pending, q'') => ⟨q'', st.yielded, st.finished, true, st.errored⟩
  else ⟨q', st.yielded, st.finished, st.pullPending, st.errored⟩

/-- One bridge step.

* `data chunk`: ignored once the queue is closed (the `onExit` handler
  disposed the data listener); otherwise the handler enqueues one item and,
  if a pull was suspended, the pull resumes.
* `exitEvent`: first time only (the handler disposes itself): `close()` the
  queue; a suspended pull then observes closure.
* `pull`: a `next()` call of the `for await` loop — a no-op once the loop
  has ended (or while an earlier pull is still pending). -/
def bridgeStep (raw : Bool) (st : BridgeState) : PtyStep → BridgeState
  | .data chunk =>
    if st.q.isClosed then st
    else
      match AsyncQueue.enqueue st.q (deliverItem raw chunk) with
      | .ok q' => resumePull st q'
      | .closedError => st
  | .exitEvent =>
    if st.q.isClosed then st
    else resumePull st (AsyncQueue.close st.q)
  | .pull =>
    if st.finished || st.errored || st.pullPending then st
    else
      match AsyncQueue.iterNext st.q with
      | (.yieldItem v, q') =>
        ⟨q', st.yielded ++ [v], st.finished, st.pullPending, st.errored⟩
      | (.done, q') => ⟨q', st.yielded, true, st.pullPending, st.errored⟩
      | (.errorLeak, q') =>
        ⟨q', st.yielded, st.finished, st.pullPending, true⟩
      | (.pending, q') => ⟨q', st.yielded, st.finished, true, st.errored⟩

/-- Run the bridge over a whole interleaving. -/
def runBridge (raw : Bool) (steps : List PtyStep) : BridgeState :=
  steps.foldl (bridgeStep raw) bridgeInit

/-- The interleaving in which the consumer keeps up: each `data` event is
followed by a consumer pull before the next event arrives. -/
def keepUpTrace : List String → List PtyStep
  | [] => []
  | c :: rest => PtyStep.data c :: PtyStep.pull :: keepUpTrace rest

/-! ## SteamCmdError (src/unnamed/part_014)

`class SteamCmdError extends Error` with the static `EXIT_CODES` enum and
`getErrorMessage`.  Exit codes are JS numbers used as integers. -/

structure SteamCmdError where
  exitCode : Int
  message : String
deriving Repr, DecidableEq

namespace SteamCmdError

/-- `EXIT_CODES.NO_ERROR` -/
def NO_ERROR : Int := 0

/-- `EXIT_CODES.UNKNOWN_ERROR` -/
def UNKNOWN_ERROR : Int := 1

/-- `EXIT_CODES.ALREADY_LOGGED_IN` -/
def ALREADY_LOGGED_IN : Int := 2

/-- `EXIT_CODES.NO_CONNECTION` -/
def NO_CONNECTION : Int := 3

/-- `EXIT_CODES.INVALID_PASSWORD` -/
def INVALID_PASSWORD : Int := 5

/-- `EXIT_CODES.INITIALIZED` -/
def INITIALIZED : Int := 7

/-- `EXIT_CODES.FAILED_TO_INSTALL` -/
def FAILED_TO_INSTALL : Int := 8

/-- `EXIT_CODES.MISSING_PARAMETERS_OR_NOT_LOGGED_IN` -/
def MISSING_PARAMETERS_OR_NOT_LOGGED_IN : Int := 10

/-- `EXIT_CODES.STEAM_GUARD_CODE_REQUIRED` -/
def STEAM_GUARD_CODE_REQUIRED : Int := 63

/-- `SteamCmdError.getErrorMessage(exitCode)`: the `switch` over the known
exit codes.  Note that `case EXIT_CODES.INITIALIZED:` falls through to
`default:` in the source, so code 7 gets the generic unknown-error text. -/
def getErrorMessage (exitCode : Int) : String :=
  if exitCode = NO_ERROR then "No error"
  else if exitCode = UNKNOWN_ERROR then "An unknown error occurred"
  else if exitCode = ALREADY_LOGGED_IN then
    "A user was already logged into SteamCMD"
  else if exitCode = NO_CONNECTION then
    "SteamCMD cannot connect to the internet"
  else if exitCode = INVALID_PASSWORD then "Invalid password"
  else if exitCode = FAILED_TO_INSTALL then
    "The application failed to install for some reason. Reasons include: " ++
    "you do not own the application, you do not have enough hard drive " ++
    "space, a network error occurred, or the application is not available " ++
    "for your selected platform."
  else if exitCode = MISSING_PARAMETERS_OR_NOT_LOGGED_IN then
    "One of your commands has missing parameters or you are not logged in"
  else if exitCode = STEAM_GUARD_CODE_REQUIRED then
    "A Steam Guard code was required to log in"
  else "An unknown error occurred. Exit code: " ++ toString exitCode

/-- `new SteamCmdError(exitCode)`: stores the exit code and auto-generates
the message from it. -/
def make (exitCode : Int) : SteamCmdError :=
  ⟨exitCode, getErrorMessage exitCode⟩

end SteamCmdError

/-! ## SteamCmd.run (src/src/SteamCmd.js) -/

/-- `'@ShutdownOnFailedCommand 1'` — first prepended safety directive. -/
def shutdownDirective : String := "@ShutdownOnFailedCommand 1"

/-- `'@NoPromptForPassword 1'` — second prepended safety directive. -/
def noPromptDirective : String := "@NoPromptForPassword 1"

/-- `` `login "${this.#username}"` `` — the auto-login directive. -/
def loginDirective (username : String) : String :=
  "login \"" ++ username ++ "\""

/-- The `allCommands` array built at the top of `SteamCmd.run`:

```js
const allCommands = [
  '@ShutdownOnFailedCommand 1',
  '@NoPromptForPassword 1',
  noAutoLogin ? '' : `login "${this.#username}"`,
  ...commands,
  'quit'
]
```

Note that when `noAutoLogin` is set the third element is the **empty
string**, not removed. -/
def allCommands (username : String) (commands : List String)
    (noAutoLogin : Bool) : List String :=
  [shutdownDirective, noPromptDirective,
   if noAutoLogin then "" else loginDirective username] ++
  commands ++ ["quit"]

/-- `allCommands.join('\n') + '\n'` — the text written to the temp script
file. -/
def scriptText (cmds : List String) : String :=
  String.intercalate "\n" cmds ++ "\n"

/-- Outcome of `run` after its output sequence has completed and the exit
code has been awaited. -/
inductive RunOutcome where
  | ok
  | err (e : SteamCmdError)
deriving Repr, DecidableEq

/-- The exit-code check at the end of `SteamCmd.run`:

```js
if (exitCode !== SteamCmdError.EXIT_CODES.NO_ERROR &&
  exitCode !== SteamCmdError.EXIT_CODES.INITIALIZED) {
  throw new SteamCmdError(exitCode)
}
``` -/
def runExitCheck (exitCode : Int) : RunOutcome :=
  if exitCode ≠ SteamCmdError.NO_ERROR ∧
      exitCode ≠ SteamCmdError.INITIALIZED then
    .err (SteamCmdError.make exitCode)
  else .ok

/-! ## SteamCmd.updateApp: install-dir validation (src/src/SteamCmd.js)

`updateApp` is declared `async *` (an async generator).  Its body starts
with

```js
if (!isAbsolute(this.#installDir)) {
  throw new TypeError('installDir must be an absolute path to update an app')
}
await mkdir(this.#installDir, { recursive: true })
```

and the rest of the body (command construction, `this.run(commands)` which
creates the temp script file and spawns the pty process) runs only after
that. -/

/-- A JS error value thrown by the modelled code. -/
inductive JsError where
  | typeError (msg : String)
deriving Repr, DecidableEq

/-- Modelled from the spec: Node's `path.isAbsolute` (external stdlib
collaborator) on POSIX — a path is absolute iff it starts with `/`. -/
def posixIsAbsolute (p : String) : Bool :=
  match p.data with
  | [] => false
  | c :: _ => c = '/' 

/-- Observable side effects of `updateApp` up to its first yield. -/
inductive UpdateEffect where
  | typeErrorRaised
  | installDirCreated
  | tempFileCreated
  | processSpawned
deriving Repr, DecidableEq

/-- The suspended async generator object returned by calling
`updateApp`. -/
structure UpdateAppGen where
  installDir : String
deriving Repr, DecidableEq

/-- Calling `steamCmd.updateApp(appId, options)`.  Because `updateApp` is an
async generator function, the call only allocates a suspended generator
object: none of the body executes, nothing is validated, nothing is thrown,
and no side effect happens at call time. -/
def updateAppCall (installDir : String) :
    Except JsError UpdateAppGen × List UpdateEffect :=
  (.ok ⟨installDir⟩, [])

/-- The first `next()` on the generator returned by `updateApp`: the body
runs from the top.  A non-absolute `#installDir` raises the `TypeError`
before any other effect; otherwise the install dir is created and the first
pull of the inner `run` generator creates the temp script file and spawns
the process. -/
def updateAppFirstNext (g : UpdateAppGen) :
    List UpdateEffect × Option JsError :=
  if !posixIsAbsolute g.installDir then
    ([.typeErrorRaised],
     some (.typeError "installDir must be an absolute path to update an app"))
  else
    ([.installDirCreated, .tempFileCreated, .processSpawned], none)

/-! ## SteamCmd constructor guard (src/src/SteamCmd.js)

`static #initialising = false`; the constructor throws when the flag is
unset and resets it to `false` first thing otherwise; `SteamCmd.init` sets
the flag and then invokes the constructor. -/

/-- `process.platform` as far as the constructor's `switch` cares. -/
inductive Platform where
  | win32
  | darwin
  | linux
  | unsupported
deriving Repr, DecidableEq

/-- The static `SteamCmd.#initialising` flag. -/
structure GuardState where
  initialising : Bool
deriving Repr, DecidableEq

/-- Errors the constructor can throw. -/
inductive CtorError where
  | directCallError
  | unsupportedPlatform
deriving Repr, DecidableEq

/-- Module-load state: `static #initialising = false`. -/
def guardInitial : GuardState := ⟨false⟩

/-- `new SteamCmd(binDir, installDir, username)`:

```js
if (!SteamCmd.#initialising) { throw new Error('Constructor may not be ...') }
SteamCmd.#initialising = false
...
switch (process.platform) { ... default: throw new Error(`Platform ...`) }
``` -/
def ctor (plat : Platform) (s : GuardState) : GuardState × Option CtorError :=
  if s.initialising = false then (s, some .directCallError)
  else
    match plat with
    | .unsupported => (⟨false⟩, some .unsupportedPlatform)
    | _ => (⟨false⟩, none)

/-- `SteamCmd.init(options)` up to and including the construction step:
`SteamCmd.#initialising = true; new SteamCmd(binDir, installDir,
username)`. -/
def initFactory (plat : Platform) (_ : GuardState) :
    GuardState × Option CtorError :=
  ctor plat ⟨true⟩

/-- Public operations that touch the guard flag, for reachability. -/
inductive GuardOp where
  | directCtor (p : Platform)
  | initCall (p : Platform)
deriving Repr, DecidableEq

/-- State after one guard-touching operation completes. -/
def guardApply (s : GuardState) : GuardOp → GuardState
  | .directCtor p => (ctor p s).1
  | .initCall p => (initFactory p s).1

/-- Guard states reachable from module load through any sequence of direct
constructor attempts and `init` calls. -/
def GuardReachable (s : GuardState) : Prop :=
  ∃ ops : List GuardOp, ops.foldl guardApply guardInitial = s

/-! ## The progress regular expression (src/src/SteamCmd.js, `updateApp`)

```js
const progressRegex =
  /Update state \((0x\d+)\) (\w+), progress: (\d+.\d+) \((\d+) \/ (\d+)\)$/
```

Embedded as an explicit backtracking matcher for exactly this pattern,
with JS semantics: leftmost match (`exec` scans start positions left to
right), greedy `+` with backtracking, `.` matching anything but a line
terminator, and `$` anchoring the match at the end of the string (no `m`
flag).  Note the pattern has no `^` anchor, the `.` between the two percent
digit runs is an **unescaped dot**, and `0x` is followed by `\d+` — decimal
digits only. -/

/-- One token of the linearised pattern.  A capture-relevant token
contributes exactly one entry to the consumed-text list. -/
inductive RTok where
  | lit (s : List Char)
  | plusDigit
  | plusWord
  | anyChar
deriving Repr, DecidableEq

/-- Match a literal; returns the remainder of the input on success. -/
def litMatch : List Char → List Char → Option (List Char)
  | [], cs => some cs
  | _ :: _, [] => none
  | p :: ps, c :: cs => if p = c then litMatch ps cs else none

/-- JS `\w`: ASCII letters, digits and underscore. -/
def isWordChar (c : Char) : Bool :=
  c.isAlphanum || c = '_'

/-- JS `.` without the `s` flag: anything but a line terminator. -/
def isDotChar (c : Char) : Bool :=
  !(c = '\n' || c = '\r' || c.val = 0x2028 || c.val = 0x2029)

/-- Backtracking matcher.  `mode = some (p, acc)` means we are inside a
greedy `+` of character class `p` having consumed `acc` (reversed) so far;
the `+` first tries to extend and falls back to ending (if non-empty) when
the longer attempt fails — JS greedy semantics.  The `$` anchor is the
`[], []`/`[], _ :: _` pair of base cases.  `fuel` only bounds the recursion
depth; `progressMatchAt` supplies enough for any input. -/
def matchGo : Nat → Option ((Char → Bool) × List Char) → List RTok →
    List Char → Option (List (List Char))
  | 0, _, _, _ => none
  | _ + 1, none, [], [] => some []
  | _ + 1, none, [], _ :: _ => none
  | f + 1, none, .lit s :: ts, cs =>
    match litMatch s cs with
    | some rest => (matchGo f none ts rest).map (fun r => s :: r)
    | none => none
  | _ + 1, none, .anyChar :: _, [] => none
  | f + 1, none, .anyChar :: ts, c :: cs =>
    if isDotChar c then (matchGo f none ts cs).map (fun r => [c] :: r)
    else none
  | f + 1, none, .plusDigit :: ts, cs =>
    matchGo f (some (Char.isDigit, [])) ts cs
  | f + 1, none, .plusWord :: ts, cs =>
    matchGo f (some (isWordChar, [])) ts cs
  | f + 1, some (_, acc), ts, [] =>
    if acc.isEmpty then none
    else (matchGo f none ts []).map (fun r => acc.reverse :: r)
  | f + 1, some (p, acc), ts, c :: cs =>
    if p c then
      match matchGo f (some (p, c :: acc)) ts cs with
      | some r => some r
      | none =>
        if acc.isEmpty then none
        else (matchGo f none ts (c :: cs)).map (fun r => acc.reverse :: r)
    else
      if acc.isEmpty then none
      else (matchGo f none ts (c :: cs)).map (fun r => acc.reverse :: r)

/-- The token sequence of `progressRegex` (the literal `0x` of capture
group 1 folded into the preceding literal). -/
def progressPattern : List RTok :=
  [.lit "Update state (0x".data, .plusDigit, .lit ") ".data, .plusWord,
   .lit ", progress: ".data, .plusDigit, .anyChar, .plusDigit,
   .lit " (".data, .plusDigit, .lit " / ".data, .plusDigit, .lit ")".data]

/-- The five capture groups of `progressRegex` (`result.slice(1)`). -/
structure ProgressGroups where
  g1 : List Char
  g2 : List Char
  g3 : List Char
  g4 : List Char
  g5 : List Char
deriving Repr, DecidableEq

/-- Reassemble the capture groups from the per-token consumed text:
group 1 is `0x` plus its digits, group 3 spans `\d+.\d+`. -/
def assembleGroups : List (List Char) → Option ProgressGroups
  | [_, d1, _, w, _, p1, dot, p2, _, a1, _, a2, _] =>
    some ⟨'0' :: 'x' :: d1, w, p1 ++ dot ++ p2, a1, a2⟩
  | _ => none

/-- Try to match the whole pattern starting exactly here (still anchored at
the end by `$`). -/
def progressMatchAt (cs : List Char) : Option ProgressGroups :=
  (matchGo (2 * cs.length + 64) none progressPattern cs).bind assembleGroups

/-- `progressRegex.exec(line)`: scan start positions left to right. -/
def progressSearch : List Char → Option ProgressGroups
  | [] => progressMatchAt []
  | c :: cs =>
    match progressMatchAt (c :: cs) with
    | some g => some g
    | none => progressSearch cs

/-- JS `parseInt` on an all-digit capture. -/
def parseNatDigits (l : List Char) : Nat :=
  l.foldl (fun n c => 10 * n + (c.toNat - 48)) 0

/-- JS `parseFloat` on a capture of shape `\d+.\d+` (digits, one arbitrary
character, digits): the longest numeric prefix, as an exact rational (the
embedding's stand-in for the JS double). -/
def parseJsFloat (l : List Char) : ℚ :=
  let ip := l.takeWhile Char.isDigit
  match l.drop ip.length with
  | '.' :: rest =>
    let fp := rest.takeWhile Char.isDigit
    (parseNatDigits ip : ℚ) + (parseNatDigits fp : ℚ) / ((10 : ℚ) ^ fp.length)
  | _ => (parseNatDigits ip : ℚ)

/-- The typed progress event `updateApp` yields for a matching line
(`SteamCmd~UpdateProgress`). -/
structure UpdateProgress where
  stateCode : String
  state : String
  progressPercent : ℚ
  progressAmount : Nat
  progressTotalAmount : Nat
deriving Repr, DecidableEq

/-- The per-line processing inside `updateApp`'s `for await` loop: run the
regex; `continue` (no event) when it does not match, otherwise yield the
typed progress event built from the capture groups. -/
def processUpdateLine (line : String) : Option UpdateProgress :=
  (progressSearch line.data).map (fun g =>
    ⟨⟨g.g1⟩, ⟨g.g2⟩, parseJsFloat g.g3, parseNatDigits g.g4,
     parseNatDigits g.g5⟩)

/-! ## Helper lemmas -/

/-- A closed queue holds no buffered items: `close` splices the array empty,
and `enqueue` refuses to add to a closed queue. -/
theorem AsyncQueue.closed_queue_empty {T : Type} (s : AsyncQueue T)
    (h : Reachable s) : s.isClosed = true → s.queue = [] := by
  obtain ⟨ops, rfl⟩ := h
  suffices H : ∀ (ops : List (QueueOp T)) (s : AsyncQueue T),
      (s.isClosed = true → s.queue = []) →
      ((applyOps s ops).isClosed = true → (applyOps s ops).queue = []) by
    exact H ops new (by intro h; rfl)
  intro ops
  induction ops with
  | nil => intro s hs; exact hs
  | cons op rest ih =>
    intro s hs
    refine ih (applyOp s op) ?_
    rcases s with ⟨q, c, a⟩
    cases op <;> cases c <;> cases a <;>
      simp_all [applyOp, enqueue, dequeue, iterNext, close]

/-- Enqueuing a list into an open queue: all enqueues succeed, the JS array
(head = newest) ends as `xs.reverse ++ q`, and the dequeue promise is
resolved as soon as anything was enqueued. -/
theorem AsyncQueue.enqueueList_open {T : Type} :
    ∀ (xs q : List T) (a : Bool),
      enqueueList ⟨q, false, a⟩ xs
        = .ok ⟨xs.reverse ++ q, false, a || !xs.isEmpty⟩ := by
  intro xs
  induction xs with
  | nil => intro q a; simp [enqueueList]
  | cons x rest ih =>
    intro q a
    simp only [enqueueList, enqueue, Bool.false_eq_true, if_false]
    rw [ih (x :: q) true]
    simp

/-- Draining a queue whose array holds `xs.reverse` (so `xs` in enqueue
order, oldest last in the array) returns exactly `xs`, oldest first. -/
theorem AsyncQueue.drain_enqueued {T : Type} :
    ∀ xs : List T,
      drain ⟨xs.reverse, false, !xs.isEmpty⟩ xs.length
        = (xs.map (fun x => DequeueOutcome.value (some x)),
           (⟨[], false, false⟩ : AsyncQueue T)) := by
  intro xs
  induction xs with
  | nil => rfl
  | cons x rest ih =>
    have harm : decide (1 < ((rest.reverse ++ [x]).length)) = !rest.isEmpty := by
      cases rest <;> simp
    have e1 : dequeue (⟨(x :: rest).reverse, false, !(x :: rest).isEmpty⟩ :
          AsyncQueue T)
        = (.value (some x), ⟨rest.reverse, false, !rest.isEmpty⟩) := by
      simp only [dequeue, List.isEmpty_cons, Bool.not_false, if_true,
        List.reverse_cons, List.getLast?_concat, List.dropLast_concat, harm]
    simp only [List.length_cons, drain, e1, ih, List.map_cons]

/-- `dequeue` never changes the closed flag. -/
theorem AsyncQueue.dequeue_isClosed {T : Type} (s : AsyncQueue T) :
    ((dequeue s).2).isClosed = s.isClosed := by
  rcases s with ⟨q, c, a⟩
  cases c <;> cases a <;> simp [dequeue]

/-- `iterNext` never changes the closed flag. -/
theorem AsyncQueue.iterNext_isClosed {T : Type} (s : AsyncQueue T) :
    ((iterNext s).2).isClosed = s.isClosed := by
  rcases s with ⟨q, c, a⟩
  cases c <;> cases a <;> simp [iterNext, dequeue]

/-- The queue-closed rejection of the inner `dequeue()` can never win the
iterator's outer race: `dequeue` only rejects when `#closedPromise` is
already resolved, and then the `({done: true})` job settles the race
first. -/
theorem AsyncQueue.iterNext_no_leak {T : Type} (s : AsyncQueue T) :
    (iterNext s).1 ≠ .errorLeak := by
  rcases s with ⟨q, c, a⟩
  cases c <;> cases a <;> simp [iterNext, dequeue]

/-- On a closed queue, `next()` always reports clean termination. -/
theorem AsyncQueue.iterNext_closed_done {T : Type} (s : AsyncQueue T)
    (h : s.isClosed = true) : (iterNext s).1 = .done := by
  rcases s with ⟨q, c, a⟩
  simp only at h
  subst h
  cases a <;> simp [iterNext, dequeue]

/-- On an open queue, `next()` never reports termination. -/
theorem AsyncQueue.iterNext_open_not_done {T : Type} (s : AsyncQueue T)
    (h : s.isClosed = false) : (iterNext s).1 ≠ .done := by
  rcases s with ⟨q, c, a⟩
  simp only at h
  subst h
  cases a <;> simp [iterNext, dequeue]

/-- `resumePull` keeps the closed flag of the queue it is given. -/
theorem resumePull_isClosed (st : BridgeState) (q' : AsyncQueue String) :
    (resumePull st q').q.isClosed = q'.isClosed := by
  unfold resumePull
  by_cases h : st.pullPending
  · simp only [h, if_true]
    rcases hiq : AsyncQueue.iterNext q' with ⟨o, q''⟩
    have hc := AsyncQueue.iterNext_isClosed q'
    rw [hiq] at hc
    cases o <;> simp_all
  · simp [h]

/-- `resumePull` never surfaces an error. -/
theorem resumePull_errored (st : BridgeState) (q' : AsyncQueue String) :
    (resumePull st q').errored = st.errored := by
  unfold resumePull
  by_cases h : st.pullPending
  · simp only [h, if_true]
    rcases hiq : AsyncQueue.iterNext q' with ⟨o, q''⟩
    have hl := AsyncQueue.iterNext_no_leak q'
    rw [hiq] at hl
    cases o <;> simp_all
  · simp [h]

/-- No bridge step ever surfaces an error to the consumer. -/
theorem bridgeStep_errored (raw : Bool) (st : BridgeState) (step : PtyStep) :
    (bridgeStep raw st step).errored = st.errored := by
  cases step with
  | data c =>
    simp only [bridgeStep]
    by_cases h : st.q.isClosed
    · simp [h]
    · simp only [h, Bool.false_eq_true, if_false]
      rcases he : AsyncQueue.enqueue st.q (deliverItem raw c) with q' | _
      · exact resumePull_errored st q'
      · rfl
  | exitEvent =>
    simp only [bridgeStep]
    by_cases h : st.q.isClosed
    · simp [h]
    · simp only [h, Bool.false_eq_true, if_false]
      exact resumePull_errored st (AsyncQueue.close st.q)
  | pull =>
    simp only [bridgeStep]
    by_cases h : st.finished || st.errored || st.pullPending
    · simp [h]
    · simp only [h, Bool.false_eq_true, if_false]
      rcases hiq : AsyncQueue.iterNext st.q with ⟨o, q'⟩
      have hl := AsyncQueue.iterNext_no_leak st.q
      rw [hiq] at hl
      cases o <;> simp_all

/-- After the exit event has been processed, the queue is closed. -/
theorem bridgeStep_exit_closes (raw : Bool) (st : BridgeState) :
    (bridgeStep raw st PtyStep.exitEvent).q.isClosed = true := by
  simp only [bridgeStep]
  by_cases hc : st.q.isClosed
  · simp [hc]
  · simp only [hc, Bool.false_eq_true, if_false]
    rw [resumePull_isClosed]
    rfl

/-- Once the queue is closed, no further step yields anything to the
consumer, and the queue stays closed. -/
theorem bridgeStep_closed_frozen (raw : Bool) (st : BridgeState)
    (step : PtyStep) (h : st.q.isClosed = true) :
    (bridgeStep raw st step).yielded = st.yielded ∧
    (bridgeStep raw st step).q.isClosed = true := by
  cases step with
  | data c => simp [bridgeStep, h]
  | exitEvent => simp [bridgeStep, h]
  | pull =>
    simp only [bridgeStep]
    by_cases hg : st.finished || st.errored || st.pullPending
    · simp [hg, h]
    · simp only [hg, Bool.false_eq_true, if_false]
      rcases hiq : AsyncQueue.iterNext st.q with ⟨o, q'⟩
      have hd := AsyncQueue.iterNext_closed_done st.q h
      have hc := AsyncQueue.iterNext_isClosed st.q
      rw [hiq] at hd hc
      cases o <;> simp_all

/-- Foldl version of `bridgeStep_closed_frozen`. -/
theorem bridge_closed_frozen (raw : Bool) :
    ∀ (steps : List PtyStep) (st : BridgeState), st.q.isClosed = true →
      (List.foldl (bridgeStep raw) st steps).yielded = st.yielded ∧
      (List.foldl (bridgeStep raw) st steps).q.isClosed = true := by
  intro steps
  induction steps with
  | nil => intro st h; exact ⟨rfl, h⟩
  | cons step rest ih =>
    intro st h
    have h1 := bridgeStep_closed_frozen raw st step h
    have h2 := ih (bridgeStep raw st step) h1.2
    exact ⟨h2.1.trans h1.1, h2.2⟩

/-- Before the exit event, the queue stays open and the sequence does not
terminate. -/
theorem bridge_open_not_finished (raw : Bool) :
    ∀ (steps : List PtyStep) (st : BridgeState),
      PtyStep.exitEvent ∉ steps →
      st.q.isClosed = false → st.finished = false →
      (List.foldl (bridgeStep raw) st steps).q.isClosed = false ∧
      (List.foldl (bridgeStep raw) st steps).finished = false := by
  intro steps
  induction steps with
  | nil => intro st _ hq hf; exact ⟨hq, hf⟩
  | cons step rest ih =>
    intro st hmem hq hf
    have hmem' : PtyStep.exitEvent ∉ rest := by
      intro hr; exact hmem (List.mem_cons_of_mem _ hr)
    have hstep : (bridgeStep raw st step).q.isClosed = false ∧
        (bridgeStep raw st step).finished = false := by
      cases step with
      | data c =>
        simp only [bridgeStep, hq, Bool.false_eq_true, if_false]
        rcases he : AsyncQueue.enqueue st.q (deliverItem raw c) with q' | _
        · have hq' : q'.isClosed = false := by
            rcases st with ⟨⟨qq, cc, aa⟩, y, f, p, e⟩
            simp only at hq
            subst hq
            simp only [AsyncQueue.enqueue, Bool.false_eq_true, if_false,
              AsyncQueue.EnqueueResult.ok.injEq] at he
            rw [← he]
          unfold resumePull
          by_cases hp : st.pullPending
          · simp only [hp, if_true]
            rcases hiq : AsyncQueue.iterNext q' with ⟨o, q''⟩
            have hc := AsyncQueue.iterNext_isClosed q'
            have hd := AsyncQueue.iterNext_open_not_done q' hq'
            rw [hiq] at hc hd
            cases o <;> simp_all
          · simp_all
        · exact ⟨hq, hf⟩
      | exitEvent => exact absurd (List.mem_cons_self _ _) hmem
      | pull =>
        simp only [bridgeStep]
        by_cases hg : st.finished || st.errored || st.pullPending
        · have hg' : st.errored = true ∨ st.pullPending = true := by
            simpa [hf] using hg
          simp [hg', hq, hf]
        · simp only [hg, Bool.false_eq_true, if_false]
          rcases hiq : AsyncQueue.iterNext st.q with ⟨o, q'⟩
          have hc := AsyncQueue.iterNext_isClosed st.q
          have hd := AsyncQueue.iterNext_open_not_done st.q hq
          rw [hiq] at hc hd
          cases o <;> simp_all
    exact ih (bridgeStep raw st step) hmem' hstep.1 hstep.2

/-- The whole bridge run never surfaces an error. -/
theorem bridge_never_errors (raw : Bool) :
    ∀ (steps : List PtyStep) (st : BridgeState), st.errored = false →
      (List.foldl (bridgeStep raw) st steps).errored = false := by
  intro steps
  induction steps with
  | nil => intro st h; exact h
  | cons step rest ih =>
    intro st h
    exact ih (bridgeStep raw st step) ((bridgeStep_errored raw st step).trans h)

/-- Keep-up run: from a fresh queue, a `data` event followed by a consumer
pull delivers exactly one item per chunk; the exit event then closes the
queue and the next pull ends the sequence cleanly. -/
theorem bridge_keepup_aux (raw : Bool) :
    ∀ (chunks : List String) (ys : List (Option String)),
      List.foldl (bridgeStep raw)
          ⟨AsyncQueue.new, ys, false, false, false⟩
          (keepUpTrace chunks ++ [PtyStep.exitEvent, PtyStep.pull])
        = ⟨⟨[], true, false⟩,
           ys ++ chunks.map (fun c => some (deliverItem raw c)),
           true, false, false⟩ := by
  intro chunks
  induction chunks with
  | nil =>
    intro ys
    show List.foldl (bridgeStep raw) _ [PtyStep.exitEvent, PtyStep.pull] = _
    simp only [List.map_nil, List.append_nil]
    rfl
  | cons c rest ih =>
    intro ys
    have h1 : bridgeStep raw ⟨AsyncQueue.new, ys, false, false, false⟩
        (PtyStep.data c)
        = ⟨⟨[deliverItem raw c], false, true⟩, ys, false, false, false⟩ := rfl
    have h2 : bridgeStep raw
        ⟨⟨[deliverItem raw c], false, true⟩, ys, false, false, false⟩
        PtyStep.pull
        = ⟨AsyncQueue.new, ys ++ [some (deliverItem raw c)],
           false, false, false⟩ := rfl
    show List.foldl (bridgeStep raw) _
        (PtyStep.data c :: PtyStep.pull :: (keepUpTrace rest ++ _)) = _
    rw [List.foldl_cons, h1, List.foldl_cons, h2,
      ih (ys ++ [some (deliverItem raw c)])]
    simp

/-! ## Claim theorems -/

/-- **C1.** AsyncQueue is strict FIFO: enqueuing any list `xs` into a fresh
open queue succeeds, and `xs.length` subsequent `dequeue()` calls all
fulfil, returning exactly the items of `xs` in their enqueue order (the
claim's `a, b, c` instance is `xs = [a, b, c]`); so dequeue order equals
enqueue order, and all items enqueued before any dequeue are retrievable in
their original order. -/
theorem asyncQueue_fifo (xs : List Nat) :
    AsyncQueue.enqueueList AsyncQueue.new xs
      = .ok ⟨xs.reverse, false, !xs.isEmpty⟩ ∧
    (AsyncQueue.drain ⟨xs.reverse, false, !xs.isEmpty⟩ xs.length).1
      = xs.map (fun x => AsyncQueue.DequeueOutcome.value (some x)) := by
  constructor
  · have h := AsyncQueue.enqueueList_open xs [] false
    simpa [AsyncQueue.new] using h
  · rw [AsyncQueue.drain_enqueued xs]

/-- **C2 counterexample.** The claim "every subsequent dequeue call fails
immediately [after `close()`]" is false on the code: after
`enqueue(7); close()` the dequeue promise is still resolved, so the next
`dequeue()` *fulfils* (with JS `undefined`, the `pop` of the array that
`close` emptied) instead of rejecting with the queue-closed error. -/
theorem asyncQueue_stale_dequeue_after_close :
    AsyncQueue.enqueue (AsyncQueue.new : AsyncQueue Nat) 7
      = .ok ⟨[7], false, true⟩ ∧
    AsyncQueue.close (⟨[7], false, true⟩ : AsyncQueue Nat)
      = ⟨[], true, true⟩ ∧
    (AsyncQueue.dequeue (⟨[], true, true⟩ : AsyncQueue Nat)).1
      = .value none := by
  exact ⟨rfl, rfl, rfl⟩

/-- **C2 (amended).** After `close()` on a reachable queue state: all
buffered items have been discarded; every subsequent `enqueue` fails;
closing again is a no-op; a pending (suspended) `dequeue` fails once the
queue is closed; and a subsequent `dequeue` fails — except that when the
internal item-available promise was left resolved (an `enqueue` not
followed by a promise-recreating `dequeue`), exactly one more `dequeue`
fulfils with an undefined value, after which dequeues fail. -/
theorem asyncQueue_close_semantics :
    (∀ s : AsyncQueue Nat, AsyncQueue.Reachable s → s.isClosed = true →
      s.queue = [] ∧
      (∀ x : Nat, AsyncQueue.enqueue s x = .closedError) ∧
      AsyncQueue.close s = s ∧
      ((AsyncQueue.dequeue s).1 = .closedError ∨
        (s.dequeueArmed = true ∧
          (AsyncQueue.dequeue s).1 = .value none ∧
          (AsyncQueue.dequeue (AsyncQueue.dequeue s).2).1 = .closedError))) ∧
    (∀ s : AsyncQueue Nat, s.isClosed = false → s.dequeueArmed = false →
      (AsyncQueue.dequeue (AsyncQueue.close s)).1 = .closedError) := by
  constructor
  · intro s hr hc
    have hq : s.queue = [] := AsyncQueue.closed_queue_empty s hr hc
    rcases s with ⟨q, c, a⟩
    simp only at hc hq
    subst hc hq
    refine ⟨rfl, fun x => rfl, rfl, ?_⟩
    cases a
    · exact Or.inl rfl
    · exact Or.inr ⟨rfl, rfl, rfl⟩
  · intro s hc ha
    rcases s with ⟨q, c, a⟩
    simp only at hc ha
    subst hc ha
    rfl

/-- **C2 witness.** `asyncQueue_close_semantics` instantiated at the
reachable closed state left by `enqueue(1); close()`, and at a pending
dequeue on a fresh queue that is then closed. -/
theorem asyncQueue_close_semantics_witness :
    (⟨[], true, true⟩ : AsyncQueue Nat).queue = [] ∧
    AsyncQueue.enqueue (⟨[], true, true⟩ : AsyncQueue Nat) 5
      = .closedError ∧
    (AsyncQueue.dequeue
      (AsyncQueue.close (⟨[], false, false⟩ : AsyncQueue Nat))).1
      = .closedError :=
  ⟨(asyncQueue_close_semantics.1 ⟨[], true, true⟩
      ⟨[.enq 1, .closeOp], rfl⟩ rfl).1,
   (asyncQueue_close_semantics.1 ⟨[], true, true⟩
      ⟨[.enq 1, .closeOp], rfl⟩ rfl).2.1 5,
   asyncQueue_close_semantics.2 ⟨[], false, false⟩ rfl rfl⟩

/-- **C4.** When the queue is consumed through `[Symbol.asyncIterator]`,
closing the queue — in any queue state, after any number of consumed
items — makes `next()` report clean termination (`done`), and the internal
queue-closed rejection can never win the race and surface to the consumer
as a failure. -/
theorem asyncQueue_iterator_ends_cleanly (s : AsyncQueue Nat)
    (hc : s.isClosed = true) :
    (AsyncQueue.iterNext s).1 = .done ∧
    ∀ t : AsyncQueue Nat, (AsyncQueue.iterNext t).1 ≠ .errorLeak :=
  ⟨AsyncQueue.iterNext_closed_done s hc, fun t => AsyncQueue.iterNext_no_leak t⟩

/-- **C4 witness.** `next()` reports `done` on closed queues both with and
without a stale resolved dequeue promise. -/
theorem asyncQueue_iterator_ends_cleanly_witness :
    (AsyncQueue.iterNext (⟨[], true, true⟩ : AsyncQueue Nat)).1 = .done ∧
    (AsyncQueue.iterNext (⟨[], true, false⟩ : AsyncQueue Nat)).1 = .done :=
  ⟨(asyncQueue_iterator_ends_cleanly ⟨[], true, true⟩ rfl).1,
   (asyncQueue_iterator_ends_cleanly ⟨[], true, false⟩ rfl).1⟩

/-- **C3 counterexample.** The claim "every data chunk delivered before the
exit event is processed is still yielded to the consumer — no final lines
are dropped, regardless of whether the consumer had already dequeued them"
is false on the code: `onExit` calls `asyncQueue.close()`, which discards
buffered items, so a chunk delivered before exit but not yet pulled is never
yielded.  Here the chunk `"final line"` arrives, the process exits, and the
consumer's next pull ends the sequence with nothing yielded. -/
theorem pty_buffered_chunk_dropped_on_exit :
    runBridge false
        [PtyStep.data "final line", PtyStep.exitEvent, PtyStep.pull]
      = ⟨⟨[], true, false⟩, [], true, false, false⟩ ∧
    cleanChunk "final line" = "final line" ∧
    ([] : List (Option String)) ≠ [some "final line"] := by
  refine ⟨by decide, by decide, by decide⟩

/-- **C3 (amended).** For every pty session consumed through the cleaned
line sequence: a consumer that pulls each chunk before the next event
receives every chunk, and the sequence then ends cleanly at the exit event;
the sequence never surfaces an error; once the exit event is processed
nothing further is ever yielded (chunks still buffered at that moment are
discarded); and the sequence never terminates before the exit event
fires. -/
theorem pty_line_sequence_exit_behaviour :
    (∀ chunks : List String,
      runBridge false
          (keepUpTrace chunks ++ [PtyStep.exitEvent, PtyStep.pull])
        = ⟨⟨[], true, false⟩,
           chunks.map (fun c => some (cleanChunk c)), true, false, false⟩) ∧
    (∀ steps1 steps2 : List PtyStep,
      (runBridge false (steps1 ++ PtyStep.exitEvent :: steps2)).yielded
        = (runBridge false (steps1 ++ [PtyStep.exitEvent])).yielded) ∧
    (∀ steps : List PtyStep, (runBridge false steps).errored = false) ∧
    (∀ steps : List PtyStep, PtyStep.exitEvent ∉ steps →
      (runBridge false steps).finished = false) := by
  refine ⟨?_, ?_, ?_, ?_⟩
  · intro chunks
    have h := bridge_keepup_aux false chunks []
    simpa [runBridge, bridgeInit, deliverItem] using h
  · intro steps1 steps2
    have hsplit : steps1 ++ PtyStep.exitEvent :: steps2
        = (steps1 ++ [PtyStep.exitEvent]) ++ steps2 := by simp
    rw [hsplit]
    unfold runBridge
    rw [List.foldl_append]
    set st := List.foldl (bridgeStep false) bridgeInit
      (steps1 ++ [PtyStep.exitEvent]) with hst
    have hclosed : st.q.isClosed = true := by
      rw [hst, List.foldl_append, List.foldl_cons, List.foldl_nil]
      exact bridgeStep_exit_closes false _
    exact (bridge_closed_frozen false steps2 st hclosed).1
  · intro steps
    exact bridge_never_errors false steps bridgeInit rfl
  · intro steps hmem
    exact (bridge_open_not_finished false steps bridgeInit hmem rfl rfl).2

/-- **C3 witness.** The amended behaviour at a concrete session: two chunks
pulled as they arrive are both delivered and the sequence then ends; a
session with no exit event has not terminated. -/
theorem pty_line_sequence_exit_behaviour_witness :
    runBridge false
        (keepUpTrace ["one", "two"] ++ [PtyStep.exitEvent, PtyStep.pull])
      = ⟨⟨[], true, false⟩, [some "one", some "two"], true, false, false⟩ ∧
    (runBridge false [PtyStep.data "x", PtyStep.pull]).finished = false := by
  constructor
  · have h := pty_line_sequence_exit_behaviour.1 ["one", "two"]
    rw [h]
    decide
  · exact pty_line_sequence_exit_behaviour.2.2.2
      [PtyStep.data "x", PtyStep.pull] (by decide)

/-- **C5 counterexample.** The claim is false on the code in two ways.
First, a chunk is delivered as **one** item — `onData` never splits on line
feeds — so the chunk `"abc\r\ndef\r"` yields the single item `"abc\ndef"`,
not the line `"abc"` followed by the line `"def"`.  Second,
`.replace(/\r/, '')` has no `g` flag, so only the *first* isolated carriage
return is removed: the chunk `"a\rb\rc"` is delivered as `"ab\rc"`, which
still contains a carriage return. -/
theorem pty_chunk_not_split_into_lines :
    (runBridge false
        [PtyStep.data "abc\r\ndef\r", PtyStep.pull, PtyStep.pull]).yielded
      = [some "abc\ndef"] ∧
    [some ("abc\ndef" : String)] ≠ [some "abc", some "def"] ∧
    cleanChunk "a\rb\rc" = "ab\rc" ∧
    '\r' ∈ (cleanChunk "a\rb\rc").data := by
  refine ⟨by decide, by decide, by decide, by decide⟩

/-- **C5 (amended).** In cleaned (non-raw) mode each raw chunk is delivered
as a single item equal to the chunk with all CRLF pairs rewritten to LF,
the **first** remaining carriage return removed, leading and trailing
whitespace trimmed, and then ANSI escape sequences stripped; in particular
`"abc\r\ndef\r"` is delivered as the single item `"abc\ndef"`, and a chunk
wrapped in ANSI colour codes is delivered with the codes removed. -/
theorem pty_clean_mode_normalisation :
    (∀ chunks : List String,
      (runBridge false
          (keepUpTrace chunks ++ [PtyStep.exitEvent, PtyStep.pull])).yielded
        = chunks.map (fun c => some (cleanChunk c))) ∧
    cleanChunk "abc\r\ndef\r" = "abc\ndef" ∧
    cleanChunk "\x1b[32m1% downloading\x1b[39m" = "1% downloading" ∧
    cleanChunk "   hello world\r\n  " = "hello world" := by
  refine ⟨?_, by decide, by decide, by decide⟩
  intro chunks
  have h := bridge_keepup_aux false chunks []
  have h2 := congrArg BridgeState.yielded h
  simpa [runBridge, bridgeInit, deliverItem] using h2

/-- **C6.** `run` completes normally exactly for exit code 0 (`NO_ERROR`)
and the benign first-run code 7 (`INITIALIZED`); every other exit code
raises a `SteamCmdError` carrying that exit code; in the taxonomy, exit
code 5 is `INVALID_PASSWORD` with message "Invalid password", and
`INITIALIZED` (7) is a taxonomy entry distinct from `NO_ERROR` (0) even
though `run` treats both as success. -/
theorem run_exit_code_contract :
    (∀ c : Int, runExitCheck c = .ok ↔ (c = 0 ∨ c = 7)) ∧
    (∀ c : Int, c ≠ 0 → c ≠ 7 →
      runExitCheck c = .err ⟨c, SteamCmdError.getErrorMessage c⟩) ∧
    SteamCmdError.INVALID_PASSWORD = 5 ∧
    SteamCmdError.getErrorMessage 5 = "Invalid password" ∧
    SteamCmdError.INITIALIZED = 7 ∧
    SteamCmdError.NO_ERROR = 0 ∧
    SteamCmdError.INITIALIZED ≠ SteamCmdError.NO_ERROR := by
  refine ⟨fun c => ?_, fun c h0 h7 => ?_, rfl, by decide, rfl, rfl, by decide⟩
  · constructor
    · intro h
      by_contra hn
      push_neg at hn
      simp [runExitCheck, SteamCmdError.NO_ERROR, SteamCmdError.INITIALIZED,
        hn.1, hn.2] at h
    · rintro (rfl | rfl) <;> rfl
  · simp [runExitCheck, SteamCmdError.NO_ERROR, SteamCmdError.INITIALIZED,
      SteamCmdError.make, h0, h7]

/-- **C6 witness.** Exit codes 0 and 7 complete normally; codes 5 and 63
raise typed errors carrying the code and its taxonomy message. -/
theorem run_exit_code_contract_witness :
    runExitCheck 0 = .ok ∧ runExitCheck 7 = .ok ∧
    runExitCheck 5 = .err ⟨5, "Invalid password"⟩ ∧
    runExitCheck 63
      = .err ⟨63, "A Steam Guard code was required to log in"⟩ := by
  refine ⟨(run_exit_code_contract.1 0).2 (Or.inl rfl),
    (run_exit_code_contract.1 7).2 (Or.inr rfl), ?_, ?_⟩
  · rw [run_exit_code_contract.2.1 5 (by decide) (by decide)]
    decide
  · rw [run_exit_code_contract.2.1 63 (by decide) (by decide)]
    decide

/-- **C7 counterexample.** When auto-login is suppressed, `run` does not
omit the login entry — the conditional expression puts the **empty string**
in its place, so the composed array keeps a third element `''` and the
script text keeps a blank line where the login directive would be.  The
claim's composition (login entry simply absent) is therefore not what the
code builds. -/
theorem run_script_blank_login_slot :
    allCommands "anonymous" ["app_update 90"] true
      = [shutdownDirective, noPromptDirective, "", "app_update 90", "quit"] ∧
    allCommands "anonymous" ["app_update 90"] true
      ≠ ["@ShutdownOnFailedCommand 1", "@NoPromptForPassword 1",
         "app_update 90", "quit"] ∧
    scriptText (allCommands "anonymous" ["app_update 90"] true)
      = "@ShutdownOnFailedCommand 1\n@NoPromptForPassword 1\n\napp_update 90\nquit\n" := by
  refine ⟨rfl, by decide, by decide⟩

/-- **C7 (amended).** `run` composes the script, in order, as the two
safety directives (`@ShutdownOnFailedCommand 1`, then
`@NoPromptForPassword 1`), then the login directive — or an empty string
(a blank script line) in its place when suppressed by the option — then the
caller's commands in their given order, with the quit directive always
last; the caller's commands are kept verbatim as a contiguous block (no
de-duplication of directives). -/
theorem run_script_composition (username : String) (commands : List String) :
    allCommands username commands false
      = [shutdownDirective, noPromptDirective, loginDirective username] ++
        commands ++ ["quit"] ∧
    allCommands username commands true
      = [shutdownDirective, noPromptDirective, ""] ++ commands ++ ["quit"] ∧
    (∀ b : Bool, (allCommands username commands b).getLast? = some "quit") ∧
    (∀ b : Bool, commands <:+: allCommands username commands b) := by
  refine ⟨rfl, rfl, ?_, ?_⟩
  · intro b
    have h : allCommands username commands b
        = ([shutdownDirective, noPromptDirective,
            if b then "" else loginDirective username] ++ commands)
          ++ ["quit"] := by
      simp [allCommands]
    rw [h, List.getLast?_concat]
  · intro b
    exact ⟨[shutdownDirective, noPromptDirective,
      if b then "" else loginDirective username], ["quit"],
      by simp [allCommands]⟩

/-- The percent capture `"12.34"` parses to the exact rational 617/50
(12.34). -/
theorem parseJsFloat_example : parseJsFloat "12.34".data = 617 / 50 := by
  have h : parseJsFloat "12.34".data
      = ((12 : Nat) : Rat) + ((34 : Nat) : Rat) / (10 : Rat) ^ (2 : Nat) := rfl
  rw [h]
  norm_num

/-- **C8 counterexample.** The matcher does not recognise exactly the lines
of the claimed shape: `(0x\d+)` only allows decimal digits after `0x`, so a
line whose hex state code contains a hex letter (`0x6a`) is *not*
recognised although it is of the claimed shape; and because the pattern has
no `^` anchor, a line with leading text before `Update state (...)` *is*
recognised although it is not of the claimed shape. -/
theorem progress_regex_shape_mismatch :
    processUpdateLine
        "Update state (0x6a) downloading, progress: 12.34 (1000 / 8000)"
      = none ∧
    processUpdateLine
        "log: Update state (0x61) downloading, progress: 12.34 (1000 / 8000)"
      = some ⟨"0x61", "downloading", 617/50, 1000, 8000⟩ := by
  refine ⟨by decide, ?_⟩
  have h : processUpdateLine
      "log: Update state (0x61) downloading, progress: 12.34 (1000 / 8000)"
      = some ⟨"0x61", "downloading", parseJsFloat "12.34".data, 1000, 8000⟩ :=
    rfl
  rw [h, parseJsFloat_example]

/-- **C8 (amended).** The progress matcher recognises precisely the lines
*ending* with `Update state (0x<decimal digits>) <word>, progress:
<digits><any character><digits> (<digits> / <digits>)`; on a match,
`updateApp` yields a typed progress event with the percent, done and total
amounts parsed as numbers from the decimal text (the spec's example line
yields stateCode `"0x61"`, state `"downloading"`, percent 12.34 = 617/50,
amounts 1000 and 8000), and every non-matching line yields no event and
raises no error. -/
theorem progress_line_parsing :
    processUpdateLine
        "Update state (0x61) downloading, progress: 12.34 (1000 / 8000)"
      = some ⟨"0x61", "downloading", 617/50, 1000, 8000⟩ ∧
    (∀ line : String, progressSearch line.data = none →
      processUpdateLine line = none) ∧
    processUpdateLine "Success! App '90' fully installed." = none := by
  refine ⟨?_, ?_, by decide⟩
  · have h : processUpdateLine
        "Update state (0x61) downloading, progress: 12.34 (1000 / 8000)"
        = some ⟨"0x61", "downloading", parseJsFloat "12.34".data, 1000, 8000⟩ :=
      rfl
    rw [h, parseJsFloat_example]
  · intro line h
    simp [processUpdateLine, h]

/-- **C8 witness.** A non-matching line produces no event. -/
theorem progress_line_parsing_witness :
    processUpdateLine "Waiting for user info...OK" = none :=
  progress_line_parsing.2.1 "Waiting for user info...OK" (by decide)

/-- **C9 counterexample.** Calling `updateApp` with a relative install
directory does **not** throw synchronously: `updateApp` is an async
generator function, so the call just allocates a suspended generator (the
call result is an ordinary object, no exception, no effect); the
`TypeError` only appears when the generator is first pulled. -/
theorem update_app_call_does_not_throw :
    updateAppCall "steamapps/common" = (.ok ⟨"steamapps/common"⟩, []) ∧
    updateAppFirstNext ⟨"steamapps/common"⟩
      = ([.typeErrorRaised],
         some (.typeError
           "installDir must be an absolute path to update an app")) :=
  ⟨rfl, rfl⟩

/-- **C9 (amended).** For every non-absolute install directory, calling
`updateApp` itself performs no side effect and raises nothing (the async
generator body is deferred); the first pull of the returned generator then
raises the `TypeError` before any side effect — no install directory is
created, no temporary file is created, and no process is spawned. -/
theorem update_app_relative_dir_validation (dir : String)
    (h : posixIsAbsolute dir = false) :
    (updateAppCall dir).2 = [] ∧
    updateAppCall dir = (.ok ⟨dir⟩, []) ∧
    (updateAppFirstNext ⟨dir⟩).2
      = some (.typeError
          "installDir must be an absolute path to update an app") ∧
    UpdateEffect.installDirCreated ∉ (updateAppFirstNext ⟨dir⟩).1 ∧
    UpdateEffect.tempFileCreated ∉ (updateAppFirstNext ⟨dir⟩).1 ∧
    UpdateEffect.processSpawned ∉ (updateAppFirstNext ⟨dir⟩).1 := by
  refine ⟨rfl, rfl, ?_, ?_, ?_, ?_⟩ <;> simp [updateAppFirstNext, h]

/-- **C9 witness.** `update_app_relative_dir_validation` at the concrete
relative directory `steamapps/common`. -/
theorem update_app_relative_dir_validation_witness :
    (updateAppCall "steamapps/common").2 = [] ∧
    (updateAppFirstNext ⟨"steamapps/common"⟩).2
      = some (.typeError
          "installDir must be an absolute path to update an app") :=
  ⟨(update_app_relative_dir_validation "steamapps/common" (by decide)).1,
   (update_app_relative_dir_validation "steamapps/common"
      (by decide)).2.2.1⟩

/-- **C10.** A `SteamCmd` instance can only be built through the `init`
factory: in every reachable guard state the static `#initialising` flag is
`false`, so a direct constructor call throws (leaving the state unchanged) —
including after any number of successful `init` calls, because the
constructor resets the flag first thing — while `init` itself constructs
successfully on every supported platform. -/
theorem constructor_factory_guard :
    (∀ s : GuardState, GuardReachable s → s.initialising = false) ∧
    (∀ s : GuardState, GuardReachable s → ∀ p : Platform,
      (ctor p s).2 = some CtorError.directCallError ∧ (ctor p s).1 = s) ∧
    (∀ p : Platform, p ≠ Platform.unsupported → ∀ s : GuardState,
      (initFactory p s).2 = none ∧ (initFactory p s).1 = ⟨false⟩) := by
  have hflag : ∀ s : GuardState, GuardReachable s → s.initialising = false := by
    intro s hs
    obtain ⟨ops, rfl⟩ := hs
    suffices H : ∀ (ops : List GuardOp) (s : GuardState),
        s.initialising = false →
        (ops.foldl guardApply s).initialising = false by
      exact H ops guardInitial rfl
    intro ops
    induction ops with
    | nil => intro s h; exact h
    | cons op rest ih =>
      intro s h
      refine ih (guardApply s op) ?_
      rcases s with ⟨b⟩
      simp only at h
      subst h
      cases op with
      | directCtor p => rfl
      | initCall p => cases p <;> rfl
  refine ⟨hflag, ?_, ?_⟩
  · intro s hs p
    have h := hflag s hs
    rcases s with ⟨b⟩
    simp only at h
    subst h
    exact ⟨rfl, rfl⟩
  · intro p hp s
    cases p with
    | unsupported => exact absurd rfl hp
    | win32 => exact ⟨rfl, rfl⟩
    | darwin => exact ⟨rfl, rfl⟩
    | linux => exact ⟨rfl, rfl⟩

/-- **C10 witness.** A direct constructor call throws at module load and
again after a completed `init`, while `init` itself succeeds on a supported
platform. -/
theorem constructor_factory_guard_witness :
    (ctor Platform.linux guardInitial).2
      = some CtorError.directCallError ∧
    (ctor Platform.linux ⟨false⟩).2 = some CtorError.directCallError ∧
    (initFactory Platform.linux ⟨false⟩).2 = none :=
  ⟨(constructor_factory_guard.2.1 guardInitial ⟨[], rfl⟩ Platform.linux).1,
   (constructor_factory_guard.2.1 ⟨false⟩
      ⟨[GuardOp.initCall Platform.linux], rfl⟩ Platform.linux).1,
   (constructor_factory_guard.2.2 Platform.linux (by decide) ⟨false⟩).1⟩
